import Mathlib

/-!
Shallow embedding of the story-carousel media viewer (photo and video pages).

The two page components share their navigation controller (`go`, `next`,
`prev`), their wheel/touch input listener (`onWheel`, `onTouchEnd`), and each
has a progress driver: a wall-clock frame loop for photos (`step`,
`runFrames`) and a media-position poller for videos (`segUpdate`,
`segProgress`).

JavaScript's `%` on integers is the truncated remainder, embedded here as
`Int.tmod`.  Times (milliseconds), pixel coordinates and media positions are
embedded as rationals.
-/

namespace StoryCarousel

/-- Navigation direction emitted by an input handler: `next()` or `prev()`. -/
inductive Nav where
  | toNext : Nav
  | toPrev : Nav
deriving DecidableEq, Repr

/-! ## Navigation controller -/

/-- `go` from both pages: `setIndex(() => (i + total) % total)`.
JS `%` is the truncated remainder, so this is `Int.tmod`. -/
def go (total i : Int) : Int := (i + total).tmod total

/-- `next()` from both pages: `go(index + 1)`. -/
def next (total index : Int) : Int := go total (index + 1)

/-- `prev()` from both pages: `go(index - 1)`. -/
def prev (total index : Int) : Int := go total (index - 1)

/-- The spec's stated contract for `goTo`: `((targetIndex % itemCount)
+ itemCount) % itemCount`, with `%` the JS truncated remainder.  Written from
the spec's words, to be compared with `go`, which is written from the code. -/
def goSpec (total i : Int) : Int := ((i.tmod total) + total).tmod total

/-- A negative dividend of magnitude smaller than the (positive) divisor is
its own truncated remainder. -/
lemma tmod_eq_self_of_neg {i n : Int} (h1 : -n < i) (h2 : i < 0) :
    i.tmod n = i := by
  have hneg : (-i).tdiv n = 0 := Int.tdiv_eq_zero_of_lt (by omega) (by omega)
  have hd : i.tdiv n = 0 := by
    have h := Int.neg_tdiv i n
    omega
  have h := Int.tmod_add_tdiv i n
  rw [hd] at h
  simpa using h

/-- On arguments `i ≥ -n` the code's single-addition formula agrees with the
mathematical (Euclidean) remainder. -/
lemma go_eq_emod {n : Int} (i : Int) (hn : 0 < n) (hi : -n ≤ i) :
    go n i = i % n := by
  unfold go
  rw [Int.tmod_eq_emod (by omega) (by omega)]
  simp

/-- Range of `go` on arguments `i ≥ -n`. -/
lemma go_mem_range {n : Int} (i : Int) (hn : 0 < n) (hi : -n ≤ i) :
    0 ≤ go n i ∧ go n i < n := by
  rw [go_eq_emod i hn hi]
  exact ⟨Int.emod_nonneg i (by omega), Int.emod_lt_of_pos i hn⟩

/-- On arguments `i ≥ -n` the spec's double-remainder formula also computes
the Euclidean remainder. -/
lemma goSpec_eq_emod {n : Int} (i : Int) (hn : 0 < n) (hi : -n ≤ i) :
    goSpec n i = i % n := by
  unfold goSpec
  rcases le_or_lt 0 i with h0 | h0
  · rw [Int.tmod_eq_emod h0 (by omega),
      Int.tmod_eq_emod (by have := Int.emod_nonneg i (by omega : n ≠ 0); omega)
        (by omega)]
    simp
  · rcases eq_or_lt_of_le hi with heq | hlt
    · have h1 : i.tmod n = 0 := by
        rw [← heq]
        exact Int.tmod_eq_zero_of_dvd ⟨-1, by ring⟩
      have h2 : i % n = 0 := by
        rw [← heq]
        exact Int.emod_eq_zero_of_dvd ⟨-1, by ring⟩
      rw [h1, h2, Int.zero_add]
      exact Int.tmod_eq_zero_of_dvd dvd_rfl
    · rw [tmod_eq_self_of_neg hlt h0]
      exact go_eq_emod i hn hi

/-! ## Index-changing operations (photo auto-advance and video `ended` both
call `next()`) -/

/-- The four operations that can change the index in either viewer. -/
inductive Op where
  | opNext : Op
  | opPrev : Op
  | autoAdvance : Op
  | videoEnded : Op
deriving DecidableEq, Repr

/-- What each operation passes to the navigation controller: the wheel/touch
and button handlers call `next()`/`prev()`; the photo timer's completion
branch and the video `onVideoEnded` handler both call `next()`. -/
def applyOp (n idx : Int) : Op → Int
  | Op.opNext => next n idx
  | Op.opPrev => prev n idx
  | Op.autoAdvance => next n idx
  | Op.videoEnded => next n idx

/-- Run a sequence of index-changing operations. -/
def runOps (n : Int) : Int → List Op → Int
  | idx, [] => idx
  | idx, op :: ops => runOps n (applyOp n idx op) ops

lemma applyOp_mem_range {n idx : Int} (op : Op) (hn : 0 < n)
    (h0 : 0 ≤ idx) (h1 : idx < n) :
    0 ≤ applyOp n idx op ∧ applyOp n idx op < n := by
  cases op <;>
    simp only [applyOp, next, prev] <;>
    exact go_mem_range _ hn (by omega)

lemma runOps_mem_range {n : Int} (ops : List Op) (idx : Int) (hn : 0 < n)
    (h0 : 0 ≤ idx) (h1 : idx < n) :
    0 ≤ runOps n idx ops ∧ runOps n idx ops < n := by
  induction ops generalizing idx with
  | nil => exact ⟨h0, h1⟩
  | cons op ops ih =>
    obtain ⟨g0, g1⟩ := applyOp_mem_range op hn h0 h1
    exact ih _ g0 g1

/-- C1 (counterexample): at `n = 4`, `targetIndex = -5` the code computes
`go 4 (-5) = (-5 + 4) % 4 = -1`, which differs from the spec's
`((-5 % 4) + 4) % 4 = 3`, lies outside `[0, 4)`, and breaks the claimed
periodicity `goTo(i) = goTo(i + n)`. -/
theorem go_spec_formula_fails :
    go 4 (-5) ≠ goSpec 4 (-5) ∧ go 4 (-5) < 0 ∧ go 4 (-5) ≠ go 4 (-5 + 4) := by
  decide

/-- C1 (amended): for every item count `n > 0` and every integer
`targetIndex ≥ -n` (which covers every argument the code ever passes,
namely `currentIndex ± 1` with `currentIndex ∈ [0, n)`), `go` agrees with the
spec's formula `((targetIndex % n) + n) % n`, lands in `[0, n)`, and
satisfies `go(i) = go(i + n)`. -/
theorem go_amended (n i : Int) (hn : 0 < n) (hi : -n ≤ i) :
    go n i = goSpec n i ∧ 0 ≤ go n i ∧ go n i < n ∧ go n i = go n (i + n) := by
  obtain ⟨h0, h1⟩ := go_mem_range i hn hi
  refine ⟨?_, h0, h1, ?_⟩
  · rw [go_eq_emod i hn hi, goSpec_eq_emod i hn hi]
  · rw [go_eq_emod i hn hi, go_eq_emod (i + n) hn (by omega)]
    simp

/-- Witness for `go_amended` at `n = 4`, `i = -3`. -/
theorem go_amended_witness :
    (0 : Int) < 4 ∧ (-4 : Int) ≤ -3 ∧
      (go 4 (-3) = goSpec 4 (-3) ∧ 0 ≤ go 4 (-3) ∧ go 4 (-3) < 4 ∧
        go 4 (-3) = go 4 (-3 + 4)) :=
  ⟨by decide, by decide, go_amended 4 (-3) (by decide) (by decide)⟩

/-- C7: from any index in `[0, n)`, `next()` followed by `prev()` returns to
the original index. -/
theorem next_prev_roundtrip (n idx : Int) (hn : 0 < n)
    (h0 : 0 ≤ idx) (h1 : idx < n) :
    prev n (next n idx) = idx := by
  have hnext : next n idx = (idx + 1) % n := go_eq_emod (idx + 1) hn (by omega)
  have hnn : 0 ≤ (idx + 1) % n := Int.emod_nonneg _ (by omega)
  have hlt : (idx + 1) % n < n := Int.emod_lt_of_pos _ hn
  unfold prev
  rw [hnext, go_eq_emod ((idx + 1) % n - 1) hn (by omega)]
  rcases lt_or_eq_of_le (by omega : idx + 1 ≤ n) with h | h
  · rw [Int.emod_eq_of_lt (by omega) h]
    have : idx + 1 - 1 = idx := by ring
    rw [this, Int.emod_eq_of_lt h0 h1]
  · rw [h, Int.emod_self]
    have key := Int.add_mul_emod_self_left (a := n - 1) (b := n) (c := -1)
    have e1 : (n : Int) - 1 + n * (-1) = 0 - 1 := by ring
    rw [e1] at key
    rw [key, Int.emod_eq_of_lt (by omega) (by omega)]
    omega

/-- Witness for `next_prev_roundtrip` at `n = 4`, `idx = 3` (the wraparound
case). -/
theorem next_prev_roundtrip_witness :
    (0 : Int) < 4 ∧ (0 : Int) ≤ 3 ∧ (3 : Int) < 4 ∧ prev 4 (next 4 3) = 3 :=
  ⟨by decide, by decide, by decide,
    next_prev_roundtrip 4 3 (by decide) (by decide) (by decide)⟩

/-- C9: starting from `currentIndex = 0` with `n > 0` items, every sequence
of index-changing operations — `next()`, `prev()`, the photo timer's
auto-advance and the video `ended` handler — keeps the index in `[0, n)`. -/
theorem index_stays_in_range (n : Int) (ops : List Op) (hn : 0 < n) :
    0 ≤ runOps n 0 ops ∧ runOps n 0 ops < n :=
  runOps_mem_range ops 0 hn le_rfl hn

/-- Witness for `index_stays_in_range` at `n = 3` with a wrap-inducing
operation sequence. -/
theorem index_stays_in_range_witness :
    (0 : Int) < 3 ∧
      (0 ≤ runOps 3 0 [Op.opNext, Op.videoEnded, Op.autoAdvance, Op.opPrev] ∧
        runOps 3 0 [Op.opNext, Op.videoEnded, Op.autoAdvance, Op.opPrev] < 3) :=
  ⟨by decide, index_stays_in_range 3 _ (by decide)⟩

/-! ## Input listener: wheel -/

/-- Throttle state of the wheel handler: the time at which the throttle flag
was last set, cleared again by the 400ms `setTimeout`. -/
structure WheelState where
  throttleSince : Option ℚ
deriving DecidableEq

/-- The `isThrottled.current` flag as seen at time `now`: `true` from a
navigation until the 400ms timeout fires. -/
def isThrottled (s : WheelState) (now : ℚ) : Bool :=
  match s.throttleSince with
  | none => false
  | some t0 => decide (now < t0 + 400)

/-- `onWheel` (both pages, lines 25–33): returns the updated throttle state
and the emitted navigation, if any. -/
def onWheel (s : WheelState) (now delta : ℚ) : WheelState × Option Nav :=
  if isThrottled s now then (s, none)
  else if |delta| < 20 then (s, none)
  else (⟨some now⟩, some (if 0 < delta then Nav.toNext else Nav.toPrev))

lemma onWheel_nav_state {s : WheelState} {now delta : ℚ}
    (h : (onWheel s now delta).2.isSome) :
    (onWheel s now delta).1 = ⟨some now⟩ := by
  unfold onWheel at h ⊢
  split_ifs at h ⊢ <;> simp_all

lemma onWheel_throttled_none {t0 : ℚ} (now delta : ℚ) (h : now < t0 + 400) :
    (onWheel ⟨some t0⟩ now delta).2 = none := by
  have hth : isThrottled ⟨some t0⟩ now = true := by
    simp [isThrottled, h]
  simp [onWheel, hth]

/-- C5: two wheel events fired within 400ms of each other produce at most one
navigation, from any starting throttle state: if the first event navigates it
sets the throttle, and the second event falls inside the 400ms window. -/
theorem wheel_two_events_at_most_one_nav (s : WheelState) (t1 d1 t2 d2 : ℚ)
    (hord : t1 ≤ t2) (hgap : t2 < t1 + 400) :
    (if (onWheel s t1 d1).2.isSome then 1 else 0) +
      (if (onWheel (onWheel s t1 d1).1 t2 d2).2.isSome then 1 else 0) ≤ 1 := by
  by_cases h1 : (onWheel s t1 d1).2.isSome
  · rw [onWheel_nav_state h1, onWheel_throttled_none t2 d2 hgap]
    simp [h1]
  · rw [if_neg h1]
    split <;> simp

/-- Witness for `wheel_two_events_at_most_one_nav`: two qualifying scrolls
100ms apart, starting unthrottled. -/
theorem wheel_two_events_witness :
    (0 : ℚ) ≤ 100 ∧ (100 : ℚ) < 0 + 400 ∧
      ((if (onWheel ⟨none⟩ 0 30).2.isSome then 1 else 0) +
        (if (onWheel (onWheel ⟨none⟩ 0 30).1 100 30).2.isSome then 1 else 0) ≤ 1) :=
  ⟨by norm_num, by norm_num,
    wheel_two_events_at_most_one_nav ⟨none⟩ 0 30 100 30 (by norm_num)
      (by norm_num)⟩

/-! ## Page state acted on by wheel navigation -/

/-- The piece of page state a wheel event can touch: the item count, the
current index, and the wheel throttle. -/
structure SysState where
  total : Int
  index : Int
  wheel : WheelState
deriving DecidableEq

/-- Route an emitted navigation to the navigation controller. -/
def applyNav (s : SysState) : Option Nav → SysState
  | none => s
  | some Nav.toNext => { s with index := next s.total s.index }
  | some Nav.toPrev => { s with index := prev s.total s.index }

/-- One wheel event on the page state. -/
def wheelEvent (s : SysState) (now delta : ℚ) : SysState :=
  { applyNav s (onWheel s.wheel now delta).2 with
    wheel := (onWheel s.wheel now delta).1 }

lemma onWheel_small_none {delta : ℚ} (s : WheelState) (now : ℚ)
    (h : |delta| < 20) : (onWheel s now delta).2 = none := by
  unfold onWheel
  split_ifs <;> simp_all

/-- C6: a wheel event whose deltaY has magnitude below 20 never changes the
current index. -/
theorem wheel_small_delta_no_nav (s : SysState) (now delta : ℚ)
    (h : |delta| < 20) : (wheelEvent s now delta).index = s.index := by
  unfold wheelEvent
  rw [onWheel_small_none s.wheel now h]
  rfl

/-- Witness for `wheel_small_delta_no_nav` at `delta = 10`. -/
theorem wheel_small_delta_witness :
    |(10 : ℚ)| < 20 ∧
      (wheelEvent ⟨4, 2, ⟨none⟩⟩ 0 10).index = (⟨4, 2, ⟨none⟩⟩ : SysState).index :=
  ⟨by norm_num, wheel_small_delta_no_nav ⟨4, 2, ⟨none⟩⟩ 0 10 (by norm_num)⟩

/-! ## Input listener: touch -/

/-- `onTouchEnd` (both pages, lines 43–56): given the recorded start refs and
the changed touch's client coordinates, returns the emitted navigation
together with the refs after the handler (cleared on the normal path,
untouched on the early return). -/
def onTouchEnd (startX startY : Option ℚ) (clientX clientY : ℚ) :
    Option Nav × Option ℚ × Option ℚ :=
  match startX, startY with
  | some sx, some sy =>
    let dx := clientX - sx
    let dy := clientY - sy
    let isHorizontal := |dx| > |dy|
    let threshold : ℚ := 40
    (if isHorizontal ∧ |dx| > threshold then
        some (if dx < 0 then Nav.toNext else Nav.toPrev)
      else none,
      none, none)
  | _, _ => (none, startX, startY)

/-- C4: with recorded start coordinates, touch-end navigates exactly when
`|dx| > |dy|` and `|dx| > 40`; a leftward swipe emits `next()`, otherwise
`prev()`; in particular `dx = -50, dy = 5` emits `next()` and
`dx = 20, dy = 5` emits nothing. -/
theorem touch_end_navigation (s e : ℚ × ℚ) :
    ((onTouchEnd (some s.1) (some s.2) e.1 e.2).1.isSome ↔
      (|e.1 - s.1| > |e.2 - s.2| ∧ |e.1 - s.1| > 40)) ∧
    (|e.1 - s.1| > |e.2 - s.2| → |e.1 - s.1| > 40 → e.1 - s.1 < 0 →
      (onTouchEnd (some s.1) (some s.2) e.1 e.2).1 = some Nav.toNext) ∧
    (|e.1 - s.1| > |e.2 - s.2| → |e.1 - s.1| > 40 → 0 ≤ e.1 - s.1 →
      (onTouchEnd (some s.1) (some s.2) e.1 e.2).1 = some Nav.toPrev) ∧
    onTouchEnd (some 100) (some 100) 50 105 = (some Nav.toNext, none, none) ∧
    onTouchEnd (some 100) (some 100) 120 105 = (none, none, none) := by
  refine ⟨?_, ?_, ?_, by norm_num [onTouchEnd], by norm_num [onTouchEnd]⟩
  · simp only [onTouchEnd]
    split_ifs with h <;> simp [h]
  · intro h1 h2 h3
    simp only [onTouchEnd]
    rw [if_pos ⟨h1, h2⟩, if_pos h3]
  · intro h1 h2 h3
    simp only [onTouchEnd]
    rw [if_pos ⟨h1, h2⟩, if_neg (not_lt.mpr h3)]

/-- Witness for `touch_end_navigation`: the swipe `dx = -50, dy = 5` from
start point (100, 100). -/
theorem touch_end_navigation_witness :
    (|(50 : ℚ) - 100| > |(105 : ℚ) - 100| ∧ |(50 : ℚ) - 100| > 40 ∧
        (50 : ℚ) - 100 < 0) ∧
      (onTouchEnd (some 100) (some 100) 50 105).1 = some Nav.toNext :=
  ⟨⟨by norm_num, by norm_num, by norm_num⟩,
    (touch_end_navigation (100, 100) (50, 105)).2.1 (by norm_num) (by norm_num)
      (by norm_num)⟩

/-- C10: a touch-end arriving with no recorded start coordinate produces no
navigation and leaves the start refs untouched. -/
theorem touch_end_missing_start :
    (∀ (startY : Option ℚ) (ex ey : ℚ),
        onTouchEnd none startY ex ey = (none, none, startY)) ∧
    (∀ (sx ex ey : ℚ),
        onTouchEnd (some sx) none ex ey = (none, some sx, none)) := by
  constructor
  · intro startY ex ey
    cases startY <;> rfl
  · intro sx ex ey
    rfl

/-! ## Photo progress driver -/

/-- The fixed photo display window: `durationMs = 5000`. -/
def durationMs : ℚ := 5000

/-- State of the photo page's frame loop: the recorded start timestamp, the
progress value, and whether a frame callback is scheduled. -/
structure PhotoDriver where
  startTs : ℚ
  progress : ℚ
  scheduled : Bool
deriving DecidableEq

/-- The index-change effect body (lines 95–98 and 112): cancel any pending
frame, reset progress to 0, record `performance.now()`, schedule `step`. -/
def activate (now : ℚ) : PhotoDriver :=
  { startTs := now, progress := 0, scheduled := true }

/-- `step` (lines 100–110): set `progress = min(1, elapsed / 5000)`; invoke
`next()` when it reaches 1, otherwise schedule another frame.  The returned
Bool reports whether `next()` was invoked on this frame. -/
def step (d : PhotoDriver) (now : ℚ) : PhotoDriver × Bool :=
  let elapsed := now - d.startTs
  let p := min 1 (elapsed / durationMs)
  if 1 ≤ p then ({ d with progress := p, scheduled := false }, true)
  else ({ d with progress := p, scheduled := true }, false)

/-- Run the photo frame loop over successive frame times, counting `next()`
invocations; once no frame is scheduled nothing further runs. -/
def runFrames : PhotoDriver → List ℚ → Nat
  | _, [] => 0
  | d, t :: ts =>
    if d.scheduled then
      (if (step d t).2 then 1 else 0) + runFrames (step d t).1 ts
    else 0

lemma step_progress (d : PhotoDriver) (now : ℚ) :
    (step d now).1.progress = min 1 ((now - d.startTs) / 5000) := by
  simp only [step, durationMs]
  split <;> rfl

lemma step_startTs (d : PhotoDriver) (now : ℚ) :
    (step d now).1.startTs = d.startTs := by
  simp only [step]
  split <;> rfl

lemma step_fired_iff (d : PhotoDriver) (now : ℚ) :
    (step d now).2 = true ↔ d.startTs + 5000 ≤ now := by
  have hiff : (1 : ℚ) ≤ min 1 ((now - d.startTs) / durationMs) ↔
      d.startTs + 5000 ≤ now := by
    rw [le_min_iff, durationMs, one_le_div (by norm_num : (0 : ℚ) < 5000)]
    constructor
    · rintro ⟨-, h⟩
      linarith
    · intro h
      exact ⟨le_rfl, by linarith⟩
  simp only [step]
  split_ifs with h
  · simpa using hiff.mp h
  · simp only [hiff] at h
    simpa using h

lemma step_scheduled_iff (d : PhotoDriver) (now : ℚ) :
    (step d now).1.scheduled = !(step d now).2 := by
  simp only [step]
  split <;> rfl

lemma runFrames_of_not_scheduled {d : PhotoDriver} (ts : List ℚ)
    (h : d.scheduled = false) : runFrames d ts = 0 := by
  cases ts <;> simp [runFrames, h]

lemma runFrames_le_one (ts : List ℚ) (d : PhotoDriver) :
    runFrames d ts ≤ 1 := by
  induction ts generalizing d with
  | nil => simp [runFrames]
  | cons t ts ih =>
    simp only [runFrames]
    split_ifs with hs hf
    · have hnot : (step d t).1.scheduled = false := by
        rw [step_scheduled_iff, hf]
        rfl
      rw [runFrames_of_not_scheduled ts hnot]
    · simpa using ih (step d t).1
    · simp

lemma runFrames_eq_one (ts : List ℚ) (d : PhotoDriver)
    (hs : d.scheduled = true) (h : ∃ t ∈ ts, d.startTs + 5000 ≤ t) :
    runFrames d ts = 1 := by
  induction ts generalizing d with
  | nil => simp at h
  | cons t ts ih =>
    simp only [runFrames, hs, if_true]
    by_cases hf : (step d t).2
    · have hnot : (step d t).1.scheduled = false := by
        rw [step_scheduled_iff, hf]
        rfl
      rw [runFrames_of_not_scheduled ts hnot]
      simp [hf]
    · have hlate : ¬(d.startTs + 5000 ≤ t) := fun hc =>
        hf ((step_fired_iff d t).mpr hc)
      obtain ⟨u, hu, hule⟩ := h
      rcases List.mem_cons.mp hu with rfl | hu'
      · exact absurd hule hlate
      · have hsch : (step d t).1.scheduled = true := by
          rw [step_scheduled_iff, Bool.eq_false_iff.mpr hf]
          rfl
        have : runFrames (step d t).1 ts = 1 :=
          ih (step d t).1 hsch ⟨u, hu', by rwa [step_startTs]⟩
        simp [hf, this]

/-- C2: on each photo frame, `step` sets `progress = min(1, (now - start)
/ 5000)`; `next()` is invoked exactly on the frame where progress reaches 1,
on which no further frame is scheduled; over any frame schedule containing a
time 5000ms past activation, `next()` fires exactly once. -/
theorem photo_timer_advances_once :
    (∀ (d : PhotoDriver) (now : ℚ),
        (step d now).1.progress = min 1 ((now - d.startTs) / 5000)) ∧
    (∀ (d : PhotoDriver) (now : ℚ),
        ((step d now).2 = true ↔ 1 ≤ (step d now).1.progress)) ∧
    (∀ (d : PhotoDriver) (now : ℚ),
        (step d now).2 = true → (step d now).1.scheduled = false) ∧
    (∀ (start : ℚ) (ts : List ℚ),
        (∃ t ∈ ts, start + 5000 ≤ t) → runFrames (activate start) ts = 1) := by
  refine ⟨step_progress, ?_, ?_, ?_⟩
  · intro d now
    rw [step_fired_iff, step_progress]
    constructor
    · intro h
      rw [le_min_iff, one_le_div (by norm_num : (0 : ℚ) < 5000)]
      exact ⟨le_rfl, by linarith⟩
    · intro h
      rw [le_min_iff, one_le_div (by norm_num : (0 : ℚ) < 5000)] at h
      linarith [h.2]
  · intro d now h
    rw [step_scheduled_iff, h]
    rfl
  · intro start ts h
    exact runFrames_eq_one ts (activate start) rfl h

/-- Witness for `photo_timer_advances_once`: activation at time 0 and a
single frame at 5000ms. -/
theorem photo_timer_advances_once_witness :
    (∃ t ∈ [(5000 : ℚ)], (0 : ℚ) + 5000 ≤ t) ∧
      runFrames (activate 0) [5000] = 1 :=
  ⟨⟨5000, by simp, by norm_num⟩,
    photo_timer_advances_once.2.2.2 0 [5000] ⟨5000, by simp, by norm_num⟩⟩

/-! ## Video progress driver (`Segment`) -/

/-- `Math.max(0.01, v.duration || 0)` (line 234): an unavailable duration
(`undefined`/`NaN`, embedded as `none`) is coerced to 0 and then clamped
below by 0.01. -/
def segDuration (dur : Option ℚ) : ℚ := max (1 / 100) (dur.getD 0)

/-- The per-frame `update` (lines 233–238): `min(1, v.currentTime
/ duration)`. -/
def segUpdate (currentTime : ℚ) (dur : Option ℚ) : ℚ :=
  min 1 (currentTime / segDuration dur)

/-- Progress reported by a `Segment` (effect, lines 240–246): an active
segment takes the frame value; an inactive one is reset to 0 and schedules
no frames. -/
def segProgress (active : Bool) (currentTime : ℚ) (dur : Option ℚ) : ℚ :=
  if active then segUpdate currentTime dur else 0

/-- C3: an inactive segment reports progress 0; the active one reports
`min(1, currentTime / duration)` with the duration clamped to at least 0.01,
so the division is well-defined and, for a nonnegative playback position,
progress lies in `[0, 1]`. -/
theorem video_progress_formula (currentTime : ℚ) (dur : Option ℚ) :
    segProgress false currentTime dur = 0 ∧
    segProgress true currentTime dur = min 1 (currentTime / segDuration dur) ∧
    (1 / 100 : ℚ) ≤ segDuration dur ∧ 0 < segDuration dur ∧
    (0 ≤ currentTime →
      0 ≤ segProgress true currentTime dur ∧
        segProgress true currentTime dur ≤ 1) := by
  have hclamp : (1 / 100 : ℚ) ≤ segDuration dur := le_max_left _ _
  have hpos : (0 : ℚ) < segDuration dur := lt_of_lt_of_le (by norm_num) hclamp
  refine ⟨rfl, rfl, hclamp, hpos, fun h => ⟨?_, ?_⟩⟩
  · exact le_min (by norm_num) (div_nonneg h hpos.le)
  · exact min_le_left _ _

/-- Witness for `video_progress_formula` at playback position 1/2 with
metadata not yet loaded. -/
theorem video_progress_formula_witness :
    (0 : ℚ) ≤ 1 / 2 ∧
      (0 ≤ segProgress true (1 / 2) none ∧ segProgress true (1 / 2) none ≤ 1) :=
  ⟨by norm_num, (video_progress_formula (1 / 2) none).2.2.2.2 (by norm_num)⟩

/-! ## Index change resets progress before any observable frame -/

/-- The photo page state as seen by the effect system.  Each scheduled frame
callback carries an id (`requestAnimationFrame` handle); cancelling forgets
the pending id, so a cancelled callback never runs. -/
structure LoopState where
  index : Int
  progress : ℚ
  startTs : ℚ
  pendingId : Option Nat
  freshId : Nat
deriving DecidableEq

/-- The index-change effect (lines 95–98 and 112): cancel the pending frame,
reset progress to 0, record the start timestamp and schedule a fresh
frame. -/
def onIndexChange (s : LoopState) (newIndex : Int) (now : ℚ) : LoopState :=
  { index := newIndex, progress := 0, startTs := now,
    pendingId := some s.freshId, freshId := s.freshId + 1 }

/-- A frame callback `id` firing at time `t`: a callback that is no longer
the pending one was cancelled and does nothing; the live one runs the body
of `step`. -/
def fireFrame (s : LoopState) (id : Nat) (t : ℚ) : LoopState :=
  if s.pendingId = some id then
    let p := min 1 ((t - s.startTs) / durationMs)
    if 1 ≤ p then { s with progress := p, pendingId := none }
    else { s with progress := p, pendingId := some s.freshId,
                  freshId := s.freshId + 1 }
  else s

/-- C8: the index-change handler resets progress to 0 synchronously; any
frame callback scheduled before the change is cancelled and leaves the state
untouched; the first frame that does run computes its progress from the new
start timestamp — stale progress from the previous item is never rendered. -/
theorem index_change_resets_progress (s : LoopState) (i : Int) (now : ℚ)
    (id : Nat) (t : ℚ) (hid : id ≠ s.freshId) :
    (onIndexChange s i now).progress = 0 ∧
    fireFrame (onIndexChange s i now) id t = onIndexChange s i now ∧
    (fireFrame (onIndexChange s i now) s.freshId t).progress =
      min 1 ((t - now) / 5000) := by
  refine ⟨rfl, ?_, ?_⟩
  · have hne : (onIndexChange s i now).pendingId ≠ some id := by
      simpa [onIndexChange] using Ne.symm hid
    simp [fireFrame, hne]
  · have heq : (onIndexChange s i now).pendingId = some s.freshId := rfl
    simp only [fireFrame, heq, if_pos rfl, if_true, durationMs]
    split <;> rfl

/-- Witness for `index_change_resets_progress`: a stale callback id 0 firing
after the index change that scheduled callback id 1. -/
theorem index_change_resets_progress_witness :
    (0 : Nat) ≠ (⟨0, 1 / 2, 0, some 0, 1⟩ : LoopState).freshId ∧
      ((onIndexChange ⟨0, 1 / 2, 0, some 0, 1⟩ 1 10).progress = 0 ∧
        fireFrame (onIndexChange ⟨0, 1 / 2, 0, some 0, 1⟩ 1 10) 0 12 =
          onIndexChange ⟨0, 1 / 2, 0, some 0, 1⟩ 1 10 ∧
        (fireFrame (onIndexChange ⟨0, 1 / 2, 0, some 0, 1⟩ 1 10)
            (⟨0, 1 / 2, 0, some 0, 1⟩ : LoopState).freshId 12).progress =
          min 1 ((12 - 10) / 5000)) :=
  ⟨by decide, index_change_resets_progress ⟨0, 1 / 2, 0, some 0, 1⟩ 1 10 0 12
    (by decide)⟩
